import Mathlib

/-!
Shallow embedding of `nu_plugin_explore_ir` (src/main.rs, src/data.rs, src/ui.rs):
the navigation state machine (block stack, jump history, goto, selection
movement), the span-highlight compositor of `source_code_ui`, the inspector's
data access, and the terminal-mode effect sequence of `ui::start`.

Conventions of the embedding:
* Rust `Vec` used as a stack (`push`/`pop`/`last` at the end) is modelled as a
  Lean `List` with the stack top at the HEAD: `push x` is `x :: l`, `pop` is a
  match on `x :: rest`, `last`/`last_mut` is `head?`.
* Machine integers (`usize`, `i64`) are modelled as `Nat` with explicit bounds
  (`usize_max`, `i64_max`) where the code's conversions can fail.
* Fallible operations return `Except String α`; the error string is the one the
  Rust code produces at that point.
* Rust byte offsets into strings are modelled as character offsets
  (`List Char` positions); they coincide on single-byte text, and no theorem
  below splits a string inside a multi-byte character.
* External collaborators (the `view ir` engine call in `data.rs`) are a
  `Resolver` parameter.
* `ratatui`'s `ListState` (v0.27) is modelled by its `selected : Option Nat`
  field; its `select_first`/`select_next`/`select_previous` methods and the
  selection clamping performed when the stateful `List` widget is rendered are
  translated from ratatui's documented behavior, since that crate is an
  external dependency of this repository.
-/

namespace ExploreIr

/-- `usize::MAX` on a 64-bit target. -/
def usize_max : Nat := 2 ^ 64 - 1

/-- `i64::MAX`; `i64::try_from(n)` for an unsigned `n` fails above this. -/
def i64_max : Nat := 2 ^ 63 - 1

/-- `nu_protocol::Span`: a byte range into the source. `end_` stands for the
Rust field `end` (a Lean keyword). -/
structure Span where
  start : Nat
  end_ : Nat
deriving DecidableEq

/-- `nu_protocol::Span::unknown()`, produced when the selected instruction has
no span (`unwrap_or` in `source_code_ui`, ui.rs:402). -/
def Span.unknown : Span := ⟨0, 0⟩

/-- The literal kinds `go_forward` distinguishes (ui.rs:139-145): block,
closure and row-condition literals carry a block id and are enterable; every
other literal kind is collapsed into `other`. -/
inductive Literal
  | block (id : Nat)
  | closure (id : Nat)
  | rowCondition (id : Nat)
  | other
deriving DecidableEq

/-- `nu_protocol::ir::Instruction`, abstracted to the shape `go_forward`
(ui.rs:123-170) dispatches on: a `Call` (with its `decl_id`), a `LoadLiteral`
(with its literal), and all remaining variants collapsed into `other`, which
carry the value of `Instruction::branch_target()` (a local instruction index
for the branching variants, `none` otherwise). `Call` and `LoadLiteral` have
no branch target in `nu_protocol`. -/
inductive Instruction
  | call (declId : Nat)
  | loadLiteral (lit : Literal)
  | other (branchTarget : Option Nat)
deriving DecidableEq

/-- `Instruction::branch_target()`. -/
def Instruction.branch_target : Instruction → Option Nat
  | .other bt => bt
  | _ => none

/-- The parts of `nu_protocol::ir::IrBlock` the program reads: parallel arrays
of instructions, spans and comments. -/
structure IrBlock where
  instructions : List Instruction
  spans : List Span
  comments : List String
deriving DecidableEq

/-- `data::ViewIrOutput` (data.rs:6-13). -/
structure ViewIrOutput where
  block_id : Nat
  span : Span
  ir_block : IrBlock
  formatted_instructions : List String
deriving DecidableEq

/-- `data::BlockState` (data.rs:47-51); `list_state` is the ratatui
`ListState`, modelled by its `selected` index. -/
structure BlockState where
  view_ir : ViewIrOutput
  source : String
  list_state : Option Nat
deriving DecidableEq

/-- `ui::JumpState` (ui.rs:54-57). -/
inductive JumpState
  | intoBlock
  | goto (previous : Nat)
deriving DecidableEq

/-- `ui::State` (ui.rs:23-34) minus the two external handles (`engine`,
`head`), which are folded into the `Resolver` parameter of the operations that
use them. `blocks` and `jump_list` keep their stack top at the list head. -/
structure State where
  blocks : List BlockState
  inst_list : List String
  jump_list : List JumpState
  should_quit : Bool
  show_inspector : Bool
  goto : Bool
  goto_contents : String
  error : Option String
deriving DecidableEq

/-- The external `view ir` engine call made by `data::get` (data.rs:53-68):
given the `is_decl_id` flag and the numeric id, either the parsed
`ViewIrOutput` together with the source text fetched for its span, or an
error message. -/
abbrev Resolver := Bool → Nat → Except String (ViewIrOutput × String)

/-- `data::get` (data.rs:53-68): runs the resolver and builds a `BlockState`
with `ListState::default()`, whose `selected` is `None`. -/
def data_get (resolver : Resolver) (is_decl_id : Bool) (id : Nat) :
    Except String BlockState :=
  match resolver is_decl_id id with
  | .ok (view_ir, source) => .ok ⟨view_ir, source, none⟩
  | .error e => .error e

/-- `State::current_block().list_state.selected()`: the selection of the top
block, or `none` when the stack is empty (where the Rust accessor panics;
the stack is non-empty for the whole session after `start`). -/
def current_selection (s : State) : Option Nat :=
  s.blocks.head?.bind fun b => b.list_state

/-- `state.list_state_mut().select(sel)`: replace the top block's selection.
`current_block_mut` panics on an empty stack; `modifyHead` is a no-op there. -/
def set_selection (s : State) (sel : Option Nat) : State :=
  { s with blocks := s.blocks.modifyHead fun b => { b with list_state := sel } }

/-- `ui::make_instruction_list` (ui.rs:277-310) renders one styled line per
formatted instruction. The theorems below depend only on the rendered list's
length, so each line is represented by its formatted text; the name/argument
split and the coloring are presentation-only. -/
def make_instruction_list (v : ViewIrOutput) : List String :=
  v.formatted_instructions

/-- `ui::restore_block_state` (ui.rs:101-107). -/
def restore_block_state (s : State) : State :=
  match s.blocks.head? with
  | some block => { s with inst_list := make_instruction_list block.view_ir }
  | none => { s with inst_list := [] }

/-- `ui::enter_block` (ui.rs:96-99). -/
def enter_block (s : State) (block : BlockState) : State :=
  restore_block_state { s with blocks := block :: s.blocks }

/-- The fallible closure inside `ui::go_forward` (ui.rs:110-171): on `ok` it
returns the mutated state, on `error` the message. Every `Err` in the Rust
closure occurs before any mutation of `state` (the resolver is called before
the jump record is pushed), so the translation returns the input state's
mutations only on the `ok` paths. -/
def go_forward_inner (resolver : Resolver) (s : State) : Except String State :=
  match s.blocks with
  | [] => .error "not in a block"
  | block :: _ =>
    match block.list_state with
    | none => .error "nothing is selected"
    | some index =>
      match block.view_ir.ir_block.instructions[index]? with
      | none => .error "can't find selected instruction"
      | some instruction =>
        match instruction with
        | .call declId =>
          if declId ≤ i64_max then
            match data_get resolver true declId with
            | .ok new_block =>
              .ok (enter_block { s with jump_list := .intoBlock :: s.jump_list }
                    new_block)
            | .error e => .error e
          else .error "out of range integral type conversion attempted"
        | .loadLiteral (.block block_id)
        | .loadLiteral (.closure block_id)
        | .loadLiteral (.rowCondition block_id) =>
          if block_id ≤ i64_max then
            match data_get resolver false block_id with
            | .ok new_block =>
              .ok (enter_block { s with jump_list := .intoBlock :: s.jump_list }
                    new_block)
            | .error e => .error e
          else .error "out of range integral type conversion attempted"
        | instr =>
          match instr.branch_target with
          | some branch_target =>
            .ok (set_selection
                  { s with jump_list := .goto index :: s.jump_list }
                  (some branch_target))
          | none => .error "nothing to jump to"

/-- `ui::go_forward` (ui.rs:109-174): run the closure; on failure, store the
message as the transient error. -/
def go_forward (resolver : Resolver) (s : State) : State :=
  match go_forward_inner resolver s with
  | .ok s' => s'
  | .error e => { s with error := some e }

/-- `ui::go_back` (ui.rs:176-193). `jump_list.pop()` removes the record
before the `AtRoot` check, so a failed pop of the block stack still consumes
the record. -/
def go_back (s : State) : State :=
  match s.jump_list with
  | JumpState.intoBlock :: rest =>
    if s.blocks.length > 1 then
      restore_block_state { s with jump_list := rest, blocks := s.blocks.tail }
    else
      { s with jump_list := rest,
               error := some "unable to jump to the previous block" }
  | JumpState.goto previous :: rest =>
    set_selection { s with jump_list := rest } (some previous)
  | [] => { s with error := some "can't go back any further" }

/-- ratatui `ListState::select_first()` (v0.27): selects index 0 regardless of
the item count (out-of-range selections are corrected at render time). -/
def select_first : Option Nat := some 0

/-- ratatui `ListState::select_next()` (v0.27): `selected.map_or(0, |i|
i.saturating_add(1))`. -/
def select_next (sel : Option Nat) : Option Nat :=
  some (match sel with
        | none => 0
        | some i => min (i + 1) usize_max)

/-- ratatui `ListState::select_previous()` (v0.27): `selected.map_or(usize::MAX,
|i| i.saturating_sub(1))`. -/
def select_previous (sel : Option Nat) : Option Nat :=
  some (match sel with
        | none => usize_max
        | some i => i - 1)

/-- The state mutation performed by one redraw of the UI (ui.rs:87, 379-389):
rendering the stateful instruction list (ratatui `List` render, v0.27, into a
non-empty area) clears the selection when the item list is empty and moves an
out-of-range selection to the last item; the other panels do not mutate the
state. -/
def draw (s : State) : State :=
  if s.inst_list.length = 0 then set_selection s none
  else
    match current_selection s with
    | some i =>
      if s.inst_list.length ≤ i then
        set_selection s (some (s.inst_list.length - 1))
      else s
    | none => s

/-- Rust `String::pop()`: drop the last character. -/
def string_pop (s : String) : String := ⟨s.data.dropLast⟩

/-- `str::split_at(n)` over byte offsets, modelled on character positions. -/
def split_at (s : String) (n : Nat) : String × String :=
  (⟨s.data.take n⟩, ⟨s.data.drop n⟩)

/-- Rust `usize::from_str` as used by `state.goto_contents.parse::<usize>()`
(ui.rs:218): an optional leading `+`, then one or more ASCII digits, value at
most `usize::MAX`; the error strings are the `ParseIntError` displays. -/
def parse_usize (s : String) : Except String Nat :=
  let ds := match s.data with
            | '+' :: rest => rest
            | l => l
  if ds = [] then .error "cannot parse integer from empty string"
  else if ds.all (fun c => c.isDigit) then
    let n := ds.foldl (fun acc c => acc * 10 + (c.toNat - 48)) 0
    if n ≤ usize_max then .ok n
    else .error "number too large to fit in target type"
  else .error "invalid digit found in string"

/-- The key codes `handle_keypress` distinguishes. -/
inductive KeyCode
  | char (c : Char)
  | backspace
  | enter
  | esc
  | up
  | down
deriving DecidableEq

/-- `ui::handle_keypress` (ui.rs:206-263). Guarded arms (`if state.goto`)
become the outer `if`s; the trailing `_ => ()` arm is the final `else`. -/
def handle_keypress (resolver : Resolver) (s : State) (key : KeyCode) : State :=
  let s := { s with error := none }
  match key with
  | .char c =>
    if s.goto then { s with goto_contents := s.goto_contents.push c }
    else if c = 'q' then { s with should_quit := true }
    else if c = 'g' then { s with goto := true }
    else if c = ' ' then { s with show_inspector := true }
    else if c = 'k' then set_selection s (select_previous (current_selection s))
    else if c = 'j' then set_selection s (select_next (current_selection s))
    else if c = '[' then go_back s
    else if c = ']' then go_forward resolver s
    else s
  | .backspace =>
    if s.goto then { s with goto_contents := string_pop s.goto_contents } else s
  | .enter =>
    if s.goto then
      let s := { s with goto := false }
      match parse_usize s.goto_contents with
      | .ok index =>
        if index < s.inst_list.length then
          let s := { s with goto_contents := "" }
          let s := match current_selection s with
                   | some previous =>
                     { s with jump_list := .goto previous :: s.jump_list }
                   | none => s
          set_selection s (some index)
        else { s with error := some "index out of range" }
      | .error e => { s with error := some e }
    else s
  | .esc => { s with show_inspector := false, goto := false }
  | .up => set_selection s (select_previous (current_selection s))
  | .down => set_selection s (select_next (current_selection s))

/-- One `move_selection` step of the spec: an Up/Down keypress followed by the
redraw the session loop performs before the next event is handled
(ui.rs:86-89), which clamps the selection via the stateful list render.
`down = true` is Down/`j`, `down = false` is Up/`k`. -/
def move_selection (resolver : Resolver) (s : State) (down : Bool) : State :=
  draw (handle_keypress resolver s (if down then .down else .up))

/-- The `State` literal built in `ui::start` (ui.rs:69-80). -/
def init_state : State :=
  { blocks := [], inst_list := [], jump_list := [], should_quit := false,
    show_inspector := false, goto := false, goto_contents := "", error := none }

/-- The state set up by `ui::start` before the loop (ui.rs:82-84): enter the
initial block, then `select_first`. -/
def start_state (initial : BlockState) : State :=
  set_selection (enter_block init_state initial) select_first

/-- The data accesses of `ui::inspector_ui` (ui.rs:494-498): when an index is
selected it indexes `formatted_instructions[index]` and
`ir_block.instructions[index]` with no bounds check; `none` models both the
nothing-selected case (the inspector body renders nothing) and the
out-of-range case (where the Rust indexing panics). -/
def inspector_lookup (s : State) : Option (String × Instruction) := do
  let index ← current_selection s
  let b ← s.blocks.head?
  let f ← b.view_ir.formatted_instructions[index]?
  let i ← b.view_ir.ir_block.instructions[index]?
  return (f, i)

/-- Split a character list at every `'\n'` (the pieces exclude the
newlines); an empty input yields one empty piece, like Rust `str::split`. -/
def split_newlines : List Char → List (List Char)
  | [] => [[]]
  | c :: cs =>
    if c = '\n' then [] :: split_newlines cs
    else
      match split_newlines cs with
      | p :: ps => (c :: p) :: ps
      | [] => [[c]]

/-- Rust `str::lines()`: split at `'\n'`, drop a final empty piece produced by
a trailing newline, and strip one trailing `'\r'` from each line. -/
def rust_lines (s : String) : List String :=
  match s.data with
  | [] => []
  | l =>
    let parts := split_newlines l
    let parts := if l.getLast? = some '\n' then parts.dropLast else parts
    parts.map fun p => ⟨if p.getLast? = some '\r' then p.dropLast else p⟩

/-- One ratatui `Span` of rendered text: its content and whether it carries
the highlight style (`source_code_ui` uses exactly one non-plain style,
ui.rs:429). -/
structure Seg where
  content : String
  highlighted : Bool
deriving DecidableEq

/-- A ratatui `Text`: lines of segments. -/
abbrev UiText := List (List Seg)

/-- ratatui `Text::push_line`. -/
def push_line (t : UiText) (l : List Seg) : UiText := t ++ [l]

/-- ratatui `Text::push_span`: append to the last line, creating one if the
text is empty. -/
def push_span (t : UiText) (sg : Seg) : UiText :=
  match t.getLast? with
  | none => [[sg]]
  | some last => t.dropLast ++ [last ++ [sg]]

/-- ratatui `Text::raw`: the string's lines, each a single plain segment. -/
def text_raw (s : String) : UiText :=
  (rust_lines s).map fun l => [⟨l, false⟩]

/-- The span `source_code_ui` tries to highlight (ui.rs:398-401): the span of
the selected instruction, when there is a selection and the index is in range
of the parallel `spans` array. -/
def highlight_target (block : BlockState) : Option Span :=
  block.list_state.bind fun index => block.view_ir.ir_block.spans[index]?

/-- The text built by `ui::source_code_ui` (ui.rs:391-453). The missing-span
case substitutes `Span::unknown()`; the in-range test and the three-way split
with per-range line reassembly follow ui.rs:408-450; otherwise the whole
source is emitted raw (ui.rs:452). Iterator translation: `lines().take(n-1)`
plus `lines().last()` for the initial part; one shared iterator (`next`,
`take(n-2)`, `next`) for the highlighted part; `lines().next()` plus
`lines().skip(1)` for the final part. -/
def source_code_ui (block : BlockState) : UiText :=
  let block_span := block.view_ir.span
  let highlighted_span := (highlight_target block).getD Span.unknown
  if block_span.start ≤ highlighted_span.start ∧
      highlighted_span.end_ ≤ block_span.end_ then
    let start := highlighted_span.start - block_span.start
    let stop := highlighted_span.end_ - block_span.start
    let (initial, next) := split_at block.source start
    let (highlighted, final_part) := split_at next (stop - start)
    let ilines := rust_lines initial
    let t : UiText := (ilines.take (ilines.length - 1)).map fun l => [⟨l, false⟩]
    let t := match ilines.getLast? with
             | some l => push_line t [⟨l, false⟩]
             | none => t
    let hlines := rust_lines highlighted
    let t := match hlines.head? with
             | some l => push_span t ⟨l, true⟩
             | none => t
    let t := t ++ ((hlines.tail.take (hlines.length - 2)).map fun l => [⟨l, true⟩])
    let t := match (hlines.tail.drop (hlines.length - 2)).head? with
             | some l => push_line t [⟨l, true⟩]
             | none => t
    let flines := rust_lines final_part
    let t := match flines.head? with
             | some l => push_span t ⟨l, false⟩
             | none => t
    t ++ (flines.tail.map fun l => [⟨l, false⟩])
  else
    text_raw block.source

/-- No segment of the text carries the highlight style. -/
def no_highlight (t : UiText) : Prop :=
  ∀ l ∈ t, ∀ sg ∈ l, sg.highlighted = false

instance (t : UiText) : Decidable (no_highlight t) := by
  unfold no_highlight; infer_instance

/-- The text content of the rendered lines, rejoined with newline
separators. -/
def concat_plain (t : UiText) : String :=
  String.intercalate "\n" (t.map fun l => String.join (l.map (·.content)))

/-- Terminal-mode effects (crossterm, via ratatui): the scoped resource of
spec §4.3. -/
inductive TermEff
  | enableRaw
  | enterAlt
  | disableRaw
  | leaveAlt
deriving DecidableEq

/-- Which of the three fallible setup steps of `ui::start` succeed. -/
structure TermOracle where
  enable_raw_ok : Bool
  enter_alt_ok : Bool
  new_terminal_ok : Bool
deriving DecidableEq

/-- The terminal-mode effects successfully performed by `ui::start`
(ui.rs:59-94), in order, for a given outcome of the setup steps. Each of the
first three statements ends in `?`, so a failure returns early; the
interactive loop performs no terminal-mode effects and always terminates at
`should_quit` on this path; after it, `disable_raw_mode()` and
`execute(LeaveAlternateScreen)` are both evaluated (both arguments of `and`
are computed), even if the loop's accumulated result was an error. -/
def start_term_trace (o : TermOracle) : List TermEff :=
  if !o.enable_raw_ok then []
  else if !o.enter_alt_ok then [.enableRaw]
  else if !o.new_terminal_ok then [.enableRaw, .enterAlt]
  else [.enableRaw, .enterAlt, .disableRaw, .leaveAlt]

/-! ### Basic lemmas about the state operations -/

theorem restore_blocks (s : State) : (restore_block_state s).blocks = s.blocks := by
  unfold restore_block_state; split <;> rfl

theorem restore_jump (s : State) :
    (restore_block_state s).jump_list = s.jump_list := by
  unfold restore_block_state; split <;> rfl

theorem enter_block_blocks (s : State) (b : BlockState) :
    (enter_block s b).blocks = b :: s.blocks := by
  simp [enter_block, restore_blocks]

theorem enter_block_jump (s : State) (b : BlockState) :
    (enter_block s b).jump_list = s.jump_list := by
  simp [enter_block, restore_jump]

theorem enter_block_sel (s : State) (b : BlockState) :
    current_selection (enter_block s b) = b.list_state := by
  simp [current_selection, enter_block_blocks]

theorem set_selection_blocks_length (s : State) (v : Option Nat) :
    (set_selection s v).blocks.length = s.blocks.length := by
  simp [set_selection]

theorem set_selection_jump (s : State) (v : Option Nat) :
    (set_selection s v).jump_list = s.jump_list := rfl

theorem set_selection_inst (s : State) (v : Option Nat) :
    (set_selection s v).inst_list = s.inst_list := rfl

theorem current_selection_set (s : State) (v : Option Nat) (h : s.blocks ≠ []) :
    current_selection (set_selection s v) = v := by
  cases hb : s.blocks with
  | nil => exact absurd hb h
  | cons b bs => simp [current_selection, set_selection, hb]

theorem go_back_into {s : State} {rest : List JumpState}
    (h1 : s.jump_list = .intoBlock :: rest) (h2 : 1 < s.blocks.length) :
    go_back s =
      restore_block_state { s with jump_list := rest, blocks := s.blocks.tail } := by
  unfold go_back
  rw [h1]
  simp [h2]

theorem go_back_goto {s : State} {p : Nat} {rest : List JumpState}
    (h1 : s.jump_list = .goto p :: rest) :
    go_back s = set_selection { s with jump_list := rest } (some p) := by
  unfold go_back
  rw [h1]

/-! ### Claims C1, C2, C3 -/

/-- C1: after every successful `jump_forward` (`go_forward`'s inner closure
returns `ok`), an immediately following `jump_backward` restores the exact
prior block-stack depth; and when the forward jump was a local goto (its jump
record is `goto`, the branch-target arm), it also restores the exact prior
selected index. -/
theorem claim1 (resolver : Resolver) (s s' : State)
    (h : go_forward_inner resolver s = .ok s') :
    (go_back s').blocks.length = s.blocks.length ∧
    (∀ p, s'.jump_list.head? = some (.goto p) →
      current_selection (go_back s') = current_selection s) := by
  obtain ⟨blocks, il, jl, sq, si, g, gc, er⟩ := s
  cases blocks with
  | nil => simp [go_forward_inner] at h
  | cons b bs =>
    cases hls : b.list_state with
    | none => simp [go_forward_inner, hls] at h
    | some index =>
      cases hi : b.view_ir.ir_block.instructions[index]? with
      | none => simp [go_forward_inner, hls, hi] at h
      | some instr =>
        have henter : ∀ nb : BlockState,
            s' = enter_block ⟨b :: bs, il, .intoBlock :: jl, sq, si, g, gc, er⟩ nb →
            (go_back s').blocks.length =
              (State.mk (b :: bs) il jl sq si g gc er).blocks.length ∧
            (∀ p, s'.jump_list.head? = some (.goto p) →
              current_selection (go_back s') =
                current_selection ⟨b :: bs, il, jl, sq, si, g, gc, er⟩) := by
          intro nb hs'
          have hbl : s'.blocks = nb :: b :: bs := by
            rw [hs', enter_block_blocks]
          have hjl : s'.jump_list = .intoBlock :: jl := by
            rw [hs', enter_block_jump]
          refine ⟨?_, ?_⟩
          · rw [go_back_into hjl (by rw [hbl]; simp), restore_blocks]
            simp [hbl]
          · intro p hp
            rw [hjl] at hp
            simp at hp
        have hgoto : ∀ bt : Nat,
            s' = set_selection
                  ⟨b :: bs, il, .goto index :: jl, sq, si, g, gc, er⟩ (some bt) →
            (go_back s').blocks.length =
              (State.mk (b :: bs) il jl sq si g gc er).blocks.length ∧
            (∀ p, s'.jump_list.head? = some (.goto p) →
              current_selection (go_back s') =
                current_selection ⟨b :: bs, il, jl, sq, si, g, gc, er⟩) := by
          intro bt hs'
          have hbl : s'.blocks.length = (b :: bs).length := by
            rw [hs', set_selection_blocks_length]
          have hjl : s'.jump_list = .goto index :: jl := by
            rw [hs', set_selection_jump]
          refine ⟨?_, ?_⟩
          · rw [go_back_goto hjl, set_selection_blocks_length]
            exact hbl
          · intro p _
            have hne : ({ s' with jump_list := jl } : State).blocks ≠ [] := by
              show s'.blocks ≠ []
              intro hcon
              rw [hcon] at hbl
              simp at hbl
            rw [go_back_goto hjl, current_selection_set _ _ hne]
            simp [current_selection, hls]
        cases instr with
        | call declId =>
          by_cases hd : declId ≤ i64_max
          · cases hg : data_get resolver true declId with
            | error e => simp [go_forward_inner, hls, hi, hd, hg] at h
            | ok nb =>
              simp [go_forward_inner, hls, hi, hd, hg] at h
              exact henter nb h.symm
          · simp [go_forward_inner, hls, hi, hd] at h
        | loadLiteral lit =>
          cases lit with
          | block bid | closure bid | rowCondition bid =>
            by_cases hd : bid ≤ i64_max
            · cases hg : data_get resolver false bid with
              | error e => simp [go_forward_inner, hls, hi, hd, hg] at h
              | ok nb =>
                simp [go_forward_inner, hls, hi, hd, hg] at h
                exact henter nb h.symm
            · simp [go_forward_inner, hls, hi, hd] at h
          | other =>
            simp [go_forward_inner, hls, hi, Instruction.branch_target] at h
        | other bt =>
          cases bt with
          | none =>
            simp [go_forward_inner, hls, hi, Instruction.branch_target] at h
          | some t =>
            simp [go_forward_inner, hls, hi, Instruction.branch_target] at h
            exact hgoto t h.symm

/-- C2: whenever `jump_forward` fails — empty stack, nothing selected,
selected index out of range of the instruction array, id conversion failure,
resolver failure, or no jump target — `go_forward` only sets the transient
error message: the block stack (and with it every block's selection), the
jump history and the rendered instruction list are exactly those of the input
state; there is no partial mutation. -/
theorem claim2 (resolver : Resolver) (s : State) (e : String)
    (h : go_forward_inner resolver s = .error e) :
    (go_forward resolver s).blocks = s.blocks ∧
    (go_forward resolver s).jump_list = s.jump_list ∧
    (go_forward resolver s).inst_list = s.inst_list ∧
    (go_forward resolver s).error = some e := by
  unfold go_forward
  rw [h]
  exact ⟨rfl, rfl, rfl, rfl⟩

/-- C3: when the jump history's most recent record is `intoBlock` and the
block stack has exactly one entry, `go_back` fails with the at-root error,
leaves the block stack unchanged, and still consumes the record: the history
shrinks by one. -/
theorem claim3 (s : State) (rest : List JumpState)
    (h1 : s.jump_list = .intoBlock :: rest)
    (h2 : s.blocks.length = 1) :
    (go_back s).blocks = s.blocks ∧
    (go_back s).jump_list = rest ∧
    (go_back s).jump_list.length + 1 = s.jump_list.length ∧
    (go_back s).error = some "unable to jump to the previous block" := by
  unfold go_back
  rw [h1]
  have hgt : ¬ s.blocks.length > 1 := by omega
  simp [hgt, h1]

/-! ### Concrete fixtures for the witnesses and counterexamples -/

/-- A three-instruction block output: a call, a branch whose target is 1, and
a plain instruction. -/
def fixture_view : ViewIrOutput :=
  ⟨7, ⟨10, 14⟩,
   ⟨[.call 3, .other (some 1), .other none],
    [⟨10, 11⟩, ⟨11, 12⟩, ⟨12, 13⟩],
    ["", "", ""]⟩,
   ["call decl 3", "jump 1", "nop"]⟩

/-- `fixture_view` with the branch instruction selected. -/
def fixture_block : BlockState := ⟨fixture_view, "abcd", some 1⟩

/-- `fixture_view` with the call instruction selected. -/
def fixture_call_block : BlockState := ⟨fixture_view, "abcd", some 0⟩

/-- A session state holding exactly the given block and jump history. -/
def base_state (b : BlockState) (jl : List JumpState) : State :=
  { blocks := [b], inst_list := make_instruction_list b.view_ir,
    jump_list := jl, should_quit := false, show_inspector := false,
    goto := false, goto_contents := "", error := none }

/-- A resolver that always fails. -/
def fail_resolver : Resolver := fun _ _ => .error "resolver down"

/-- The callee block the succeeding resolver returns. -/
def nested_view : ViewIrOutput :=
  ⟨8, ⟨20, 22⟩, ⟨[.other none], [⟨20, 21⟩], [""]⟩, ["nop"]⟩

/-- A resolver that always resolves to `nested_view`. -/
def ok_resolver : Resolver := fun _ _ => .ok (nested_view, "xy")

theorem claim1_witness :
    (go_back (go_forward fail_resolver (base_state fixture_block []))).blocks.length
        = (base_state fixture_block []).blocks.length ∧
    (∀ p, (go_forward fail_resolver (base_state fixture_block [])).jump_list.head?
        = some (.goto p) →
      current_selection
          (go_back (go_forward fail_resolver (base_state fixture_block [])))
        = current_selection (base_state fixture_block [])) :=
  claim1 fail_resolver (base_state fixture_block [])
    (go_forward fail_resolver (base_state fixture_block [])) (by rfl)

theorem claim2_witness :
    (go_forward fail_resolver (base_state fixture_call_block [])).blocks
        = (base_state fixture_call_block []).blocks ∧
    (go_forward fail_resolver (base_state fixture_call_block [])).jump_list
        = (base_state fixture_call_block []).jump_list ∧
    (go_forward fail_resolver (base_state fixture_call_block [])).inst_list
        = (base_state fixture_call_block []).inst_list ∧
    (go_forward fail_resolver (base_state fixture_call_block [])).error
        = some "resolver down" :=
  claim2 fail_resolver (base_state fixture_call_block []) "resolver down" (by rfl)

theorem claim3_witness :
    (go_back (base_state fixture_block [.intoBlock])).blocks
        = (base_state fixture_block [.intoBlock]).blocks ∧
    (go_back (base_state fixture_block [.intoBlock])).jump_list = [] ∧
    (go_back (base_state fixture_block [.intoBlock])).jump_list.length + 1
        = (base_state fixture_block [.intoBlock]).jump_list.length ∧
    (go_back (base_state fixture_block [.intoBlock])).error
        = some "unable to jump to the previous block" :=
  claim3 (base_state fixture_block [.intoBlock]) [] (by rfl) (by rfl)

/-- C5: confirming the goto prompt at a parseable in-range index `i` (the
`goto(i)` operation, ui.rs:216-235) and then immediately jumping backward
restores the selection held before the goto: the goto pushes
`Goto {previous}` for the held selection and `go_back` pops it and
re-selects it. -/
theorem claim5 (resolver : Resolver) (s : State) (p i : Nat)
    (hsel : current_selection s = some p)
    (hgoto : s.goto = true)
    (hparse : parse_usize s.goto_contents = .ok i)
    (hrange : i < s.inst_list.length) :
    current_selection (go_back (handle_keypress resolver s .enter)) = some p := by
  obtain ⟨blocks, il, jl, sq, si, g, gc, er⟩ := s
  cases blocks with
  | nil => simp [current_selection] at hsel
  | cons b bs =>
    simp only [current_selection, List.head?_cons, Option.some_bind] at hsel
    simp only [State.goto] at hgoto
    simp only [State.goto_contents] at hparse
    simp only [State.inst_list] at hrange
    simp [handle_keypress, go_back, set_selection, current_selection,
          hgoto, hparse, hrange, hsel, List.modifyHead]

theorem claim5_witness :
    current_selection
        (go_back (handle_keypress fail_resolver
          { base_state fixture_block [] with goto := true, goto_contents := "2" }
          .enter))
      = some 1 :=
  claim5 fail_resolver
    { base_state fixture_block [] with goto := true, goto_contents := "2" }
    1 2 (by rfl) (by rfl) (by rfl) (by decide)

/-! ### Lemmas about selection movement -/

theorem draw_jump (s : State) : (draw s).jump_list = s.jump_list := by
  unfold draw
  split
  · rfl
  · split
    · split <;> rfl
    · rfl

theorem draw_inst (s : State) : (draw s).inst_list = s.inst_list := by
  unfold draw
  split
  · rfl
  · split
    · split <;> rfl
    · rfl

theorem current_selection_blocks_nonempty {s : State} {i : Nat}
    (h : current_selection s = some i) : s.blocks ≠ [] := by
  intro hcon
  rw [current_selection, hcon] at h
  simp at h

theorem draw_sel_lt (s : State) (i : Nat)
    (h : current_selection (draw s) = some i) : i < s.inst_list.length := by
  unfold draw at h
  by_cases hz : s.inst_list.length = 0
  · rw [if_pos hz] at h
    cases hb : s.blocks with
    | nil =>
      rw [current_selection, set_selection, hb] at h
      simp at h
    | cons b bs =>
      rw [current_selection_set _ _ (by rw [hb]; simp)] at h
      exact absurd h (by simp)
  · rw [if_neg hz] at h
    split at h
    · next j heq =>
      by_cases hle : s.inst_list.length ≤ j
      · rw [if_pos hle] at h
        rw [current_selection_set _ _ (current_selection_blocks_nonempty heq)] at h
        cases h
        omega
      · rw [if_neg hle] at h
        rw [heq] at h
        cases h
        omega
    · next heq =>
      rw [heq] at h
      cases h

theorem hk_move_jump (resolver : Resolver) (s : State) (key : KeyCode)
    (h : key = .up ∨ key = .down) :
    (handle_keypress resolver s key).jump_list = s.jump_list := by
  cases h <;> subst_vars <;> simp [handle_keypress, set_selection_jump]

theorem hk_move_inst (resolver : Resolver) (s : State) (key : KeyCode)
    (h : key = .up ∨ key = .down) :
    (handle_keypress resolver s key).inst_list = s.inst_list := by
  cases h <;> subst_vars <;> simp [handle_keypress, set_selection_inst]

theorem move_selection_jump (resolver : Resolver) (s : State) (d : Bool) :
    (move_selection resolver s d).jump_list = s.jump_list := by
  unfold move_selection
  rw [draw_jump, hk_move_jump]
  cases d <;> simp

theorem move_selection_inst (resolver : Resolver) (s : State) (d : Bool) :
    (move_selection resolver s d).inst_list = s.inst_list := by
  unfold move_selection
  rw [draw_inst, hk_move_inst]
  cases d <;> simp

theorem move_selection_sel_lt (resolver : Resolver) (s : State) (d : Bool)
    (i : Nat) (h : current_selection (move_selection resolver s d) = some i) :
    i < s.inst_list.length := by
  unfold move_selection at h
  have := draw_sel_lt _ _ h
  rwa [hk_move_inst resolver s _ (by cases d <;> simp)] at this

theorem foldl_move_jump (resolver : Resolver) (moves : List Bool) (s : State) :
    (moves.foldl (move_selection resolver) s).jump_list = s.jump_list := by
  induction moves generalizing s with
  | nil => rfl
  | cons m rest ih => rw [List.foldl_cons, ih, move_selection_jump]

theorem foldl_move_inst (resolver : Resolver) (moves : List Bool) (s : State) :
    (moves.foldl (move_selection resolver) s).inst_list = s.inst_list := by
  induction moves generalizing s with
  | nil => rfl
  | cons m rest ih => rw [List.foldl_cons, ih, move_selection_inst]

theorem foldl_move_sel_lt (resolver : Resolver) (moves : List Bool) (s : State)
    (hne : moves ≠ []) (i : Nat)
    (h : current_selection (moves.foldl (move_selection resolver) s) = some i) :
    i < s.inst_list.length := by
  induction moves generalizing s with
  | nil => exact absurd rfl hne
  | cons m rest ih =>
    rw [List.foldl_cons] at h
    cases hr : rest with
    | nil =>
      rw [hr, List.foldl_nil] at h
      exact move_selection_sel_lt resolver s m i h
    | cons m2 r2 =>
      rw [hr] at h
      have := ih (move_selection resolver s m) (by rw [hr]; simp)
                 (by rw [hr]; exact h)
      rwa [move_selection_inst] at this

/-- C6: any sequence of `move_selection` steps (each an Up/Down keypress
followed by the session loop's redraw) leaves the jump history's length — in
fact the history itself — and the rendered instruction list unchanged, keeps
the selection inside `[0, len-1]` (after at least one step the selection, if
any, is a valid index), and saturates at the ends: Down at the last index
stays at the last index, Up at index 0 stays at 0. -/
theorem claim6 (resolver : Resolver) (s : State) (moves : List Bool) :
    (moves.foldl (move_selection resolver) s).jump_list.length
        = s.jump_list.length ∧
    (moves.foldl (move_selection resolver) s).inst_list = s.inst_list ∧
    (moves ≠ [] → ∀ i,
      current_selection (moves.foldl (move_selection resolver) s) = some i →
      i < s.inst_list.length) ∧
    (0 < s.inst_list.length → s.inst_list.length ≤ usize_max →
      current_selection s = some (s.inst_list.length - 1) →
      current_selection (move_selection resolver s true)
        = some (s.inst_list.length - 1)) ∧
    (0 < s.inst_list.length → current_selection s = some 0 →
      current_selection (move_selection resolver s false) = some 0) := by
  refine ⟨by rw [foldl_move_jump], foldl_move_inst resolver moves s,
          fun hne i h => foldl_move_sel_lt resolver moves s hne i h, ?_, ?_⟩
  · intro hpos hmax hlast
    obtain ⟨blocks, il, jl, sq, si, g, gc, er⟩ := s
    cases blocks with
    | nil => simp [current_selection] at hlast
    | cons b bs =>
      simp only [current_selection, List.head?_cons, Option.some_bind] at hlast
      simp only [State.inst_list] at hpos hmax ⊢
      have hmin : min (il.length - 1 + 1) usize_max = il.length := by omega
      simp [move_selection, handle_keypress, draw, select_next, set_selection,
            current_selection, hlast, hmin, List.modifyHead, Nat.pos_iff_ne_zero.mp hpos]
  · intro hpos hzero
    obtain ⟨blocks, il, jl, sq, si, g, gc, er⟩ := s
    cases blocks with
    | nil => simp [current_selection] at hzero
    | cons b bs =>
      simp only [current_selection, List.head?_cons, Option.some_bind] at hzero
      simp only [State.inst_list] at hpos ⊢
      simp [move_selection, handle_keypress, draw, select_previous, set_selection,
            current_selection, hzero, List.modifyHead,
            Nat.pos_iff_ne_zero.mp hpos, Nat.not_succ_le_zero]

/-! ### C7: goto-prompt confirmation -/

/-- A state with the goto prompt open on unparseable pending text. -/
def goto_fail_state : State :=
  { base_state fixture_block [] with goto := true, goto_contents := "x" }

/-- C7 counterexample: confirming the goto prompt on the unparseable buffer
`"x"` closes the prompt but does NOT clear the pending text buffer — it still
holds `"x"` — refuting the claim that every outcome clears the buffer
(`goto_contents.clear()` runs only in the success branch, ui.rs:221). -/
theorem claim7_counterexample :
    goto_fail_state.goto = true ∧
    (handle_keypress fail_resolver goto_fail_state .enter).goto = false ∧
    (handle_keypress fail_resolver goto_fail_state .enter).goto_contents = "x" ∧
    (handle_keypress fail_resolver goto_fail_state .enter).goto_contents ≠ "" := by
  decide

/-- C7 amended: every outcome of confirming the goto prompt closes the
prompt; the pending buffer is cleared only on a successful goto, while parse
failure and out-of-range leave the buffer's text in place (and set the
corresponding transient error). -/
theorem claim7 (resolver : Resolver) (s : State) (h : s.goto = true) :
    (handle_keypress resolver s .enter).goto = false ∧
    (∀ i, parse_usize s.goto_contents = .ok i → i < s.inst_list.length →
      (handle_keypress resolver s .enter).goto_contents = "") ∧
    (∀ e, parse_usize s.goto_contents = .error e →
      (handle_keypress resolver s .enter).goto_contents = s.goto_contents ∧
      (handle_keypress resolver s .enter).error = some e) ∧
    (∀ i, parse_usize s.goto_contents = .ok i → ¬ i < s.inst_list.length →
      (handle_keypress resolver s .enter).goto_contents = s.goto_contents ∧
      (handle_keypress resolver s .enter).error = some "index out of range") := by
  refine ⟨?_, ?_, ?_, ?_⟩
  · cases hp : parse_usize s.goto_contents with
    | ok i =>
      by_cases hr : i < s.inst_list.length
      · simp [handle_keypress, h, hp, hr, set_selection]
        split <;> rfl
      · simp [handle_keypress, h, hp, hr]
    | error e => simp [handle_keypress, h, hp]
  · intro i hp hr
    simp [handle_keypress, h, hp, hr, set_selection]
    split <;> rfl
  · intro e hp
    simp [handle_keypress, h, hp]
  · intro i hp hr
    simp [handle_keypress, h, hp, hr]

theorem claim7_witness :
    (handle_keypress fail_resolver goto_fail_state .enter).goto = false ∧
    (handle_keypress fail_resolver goto_fail_state .enter).goto_contents
        = goto_fail_state.goto_contents ∧
    (handle_keypress fail_resolver goto_fail_state .enter).error
        = some "invalid digit found in string" :=
  ⟨(claim7 fail_resolver goto_fail_state (by rfl)).1,
   ((claim7 fail_resolver goto_fail_state (by rfl)).2.2.1
      "invalid digit found in string" (by rfl)).1,
   ((claim7 fail_resolver goto_fail_state (by rfl)).2.2.1
      "invalid digit found in string" (by rfl)).2⟩

/-! ### C8: selection of a newly entered block -/

/-- A resolver-produced block: one instruction, no persisted cursor
(`ListState::default()`). -/
def nested_block : BlockState := ⟨nested_view, "xy", none⟩

/-- C8 counterexample: `enter_block` on a block with one instruction and no
persisted cursor leaves the selection empty — it does NOT default to the
first instruction — refuting the claimed default. -/
theorem claim8_counterexample :
    0 < nested_block.view_ir.ir_block.instructions.length ∧
    nested_block.list_state = none ∧
    current_selection (enter_block (base_state fixture_block []) nested_block)
        = none ∧
    current_selection (enter_block (base_state fixture_block []) nested_block)
        ≠ some 0 := by
  decide

/-- C8 amended: `enter(block)` activates exactly the pushed block's persisted
cursor, with no defaulting; a block entered through a successful
block-entering `jump_forward` comes from `data::get` with
`ListState::default()` and therefore starts with NO selection; only session
start defaults the cursor, by running `select_first` on the initial block
after entering it (ui.rs:82-84). -/
theorem claim8 (resolver : Resolver) (s s' : State)
    (h : go_forward_inner resolver s = .ok s')
    (hj : s'.jump_list.head? = some .intoBlock) :
    current_selection s' = none ∧
    (∀ t b, current_selection (enter_block t b) = b.list_state) ∧
    (∀ init, current_selection (start_state init) = some 0) := by
  refine ⟨?_, fun t b => enter_block_sel t b, ?_⟩
  · obtain ⟨blocks, il, jl, sq, si, g, gc, er⟩ := s
    cases blocks with
    | nil => simp [go_forward_inner] at h
    | cons b bs =>
      cases hls : b.list_state with
      | none => simp [go_forward_inner, hls] at h
      | some index =>
        cases hi : b.view_ir.ir_block.instructions[index]? with
        | none => simp [go_forward_inner, hls, hi] at h
        | some instr =>
          cases instr with
          | call declId =>
            by_cases hd : declId ≤ i64_max
            · cases hg : resolver true declId with
              | error e =>
                simp [go_forward_inner, hls, hi, hd, data_get, hg] at h
              | ok vs =>
                obtain ⟨v, src⟩ := vs
                simp [go_forward_inner, hls, hi, hd, data_get, hg] at h
                rw [← h, enter_block_sel]
            · simp [go_forward_inner, hls, hi, hd] at h
          | loadLiteral lit =>
            cases lit with
            | block bid | closure bid | rowCondition bid =>
              by_cases hd : bid ≤ i64_max
              · cases hg : resolver false bid with
                | error e =>
                  simp [go_forward_inner, hls, hi, hd, data_get, hg] at h
                | ok vs =>
                  obtain ⟨v, src⟩ := vs
                  simp [go_forward_inner, hls, hi, hd, data_get, hg] at h
                  rw [← h, enter_block_sel]
              · simp [go_forward_inner, hls, hi, hd] at h
            | other =>
              simp [go_forward_inner, hls, hi, Instruction.branch_target] at h
          | other bt =>
            cases bt with
            | none =>
              simp [go_forward_inner, hls, hi, Instruction.branch_target] at h
            | some t =>
              simp [go_forward_inner, hls, hi, Instruction.branch_target] at h
              rw [← h] at hj
              simp [set_selection] at hj
  · intro init
    rw [start_state, current_selection_set]
    · rfl
    · rw [enter_block_blocks]
      simp

theorem claim8_witness :
    current_selection (go_forward ok_resolver (base_state fixture_call_block []))
        = none ∧
    (∀ t b, current_selection (enter_block t b) = b.list_state) ∧
    (∀ init, current_selection (start_state init) = some 0) :=
  claim8 ok_resolver (base_state fixture_call_block [])
    (go_forward ok_resolver (base_state fixture_call_block []))
    (by rfl) (by rfl)

/-! ### C9: terminal-mode acquisition and release -/

/-- C9 counterexample: when entering the alternate screen fails during setup,
`start` returns early with raw mode enabled but never disabled — the scoped
resource is NOT released on this exit path. -/
theorem claim9_counterexample :
    TermEff.enableRaw ∈ start_term_trace ⟨true, false, true⟩ ∧
    TermEff.disableRaw ∉ start_term_trace ⟨true, false, true⟩ := by
  decide

/-- C9 amended: terminal mode is acquired stepwise before the interactive
loop; on the normal exit path both raw mode and the alternate screen are
released (both release calls are evaluated even when the loop's accumulated
result is an error); but on an early setup-failure return after raw mode is
enabled — alternate-screen entry or terminal construction failing — the
already-acquired terminal modes are not released. -/
theorem claim9 (o : TermOracle) :
    (o.enable_raw_ok = true → o.enter_alt_ok = true → o.new_terminal_ok = true →
      start_term_trace o = [.enableRaw, .enterAlt, .disableRaw, .leaveAlt]) ∧
    (o.enable_raw_ok = false → start_term_trace o = []) ∧
    (o.enable_raw_ok = true → o.enter_alt_ok = false →
      start_term_trace o = [.enableRaw]) ∧
    (o.enable_raw_ok = true → o.enter_alt_ok = true →
      o.new_terminal_ok = false →
      start_term_trace o = [.enableRaw, .enterAlt]) := by
  obtain ⟨a, b, c⟩ := o
  cases a <;> cases b <;> cases c <;> simp [start_term_trace]

theorem claim9_witness :
    start_term_trace ⟨true, true, true⟩
        = [.enableRaw, .enterAlt, .disableRaw, .leaveAlt] ∧
    start_term_trace ⟨true, true, false⟩ = [.enableRaw, .enterAlt] :=
  ⟨(claim9 ⟨true, true, true⟩).1 rfl rfl rfl,
   (claim9 ⟨true, true, false⟩).2.2.2 rfl rfl rfl⟩

/-! ### C10: unvalidated branch-target selection -/

/-- A two-instruction block whose first instruction branches to index 5. -/
def oob_view : ViewIrOutput :=
  ⟨7, ⟨10, 14⟩,
   ⟨[.other (some 5), .other none], [⟨10, 11⟩, ⟨11, 12⟩], ["", ""]⟩,
   ["jump 5", "nop"]⟩

/-- `oob_view` as the sole open block, branch instruction selected. -/
def oob_state : State := base_state ⟨oob_view, "abcd", some 0⟩ []

/-- C10: `jump_forward` on an instruction with local branch target 5 sets the
selection to 5 with no validation although the block has only 2 instructions,
whereas `goto` at the same state rejects index 5 as out of range (leaving the
selection untouched); the inspector then indexes the instruction arrays with
the unchecked selection, which is out of bounds (`inspector_lookup = none`
models the panicking `[index]` accesses of ui.rs:496-497). -/
theorem claim10 :
    current_selection (go_forward fail_resolver oob_state) = some 5 ∧
    oob_view.ir_block.instructions.length = 2 ∧
    inspector_lookup (go_forward fail_resolver oob_state) = none ∧
    (handle_keypress fail_resolver
        { go_forward fail_resolver oob_state with
          goto := true, goto_contents := "5" } .enter).error
      = some "index out of range" ∧
    current_selection (handle_keypress fail_resolver
        { go_forward fail_resolver oob_state with
          goto := true, goto_contents := "5" } .enter)
      = some 5 := by
  decide

theorem claim6_witness :
    (List.foldl (move_selection fail_resolver) (base_state fixture_block [])
        [true]).jump_list.length
      = (base_state fixture_block []).jump_list.length ∧
    (∀ i, current_selection
        (List.foldl (move_selection fail_resolver) (base_state fixture_block [])
          [true]) = some i →
      i < (base_state fixture_block []).inst_list.length) ∧
    current_selection
        (move_selection fail_resolver (base_state ⟨fixture_view, "abcd", some 2⟩ [])
          true) = some 2 ∧
    current_selection
        (move_selection fail_resolver (base_state ⟨fixture_view, "abcd", some 0⟩ [])
          false) = some 0 :=
  ⟨(claim6 fail_resolver (base_state fixture_block []) [true]).1,
   (claim6 fail_resolver (base_state fixture_block []) [true]).2.2.1 (by simp),
   (claim6 fail_resolver (base_state ⟨fixture_view, "abcd", some 2⟩ []) []).2.2.2.1
     (by decide) (by decide) (by decide),
   (claim6 fail_resolver (base_state ⟨fixture_view, "abcd", some 0⟩ []) []).2.2.2.2
     (by decide) (by decide)⟩

/-! ### C4: the compositor's fallback path -/

theorem rust_lines_empty : rust_lines "" = [] := rfl

theorem string_mk_data (s : String) : String.mk s.data = s := rfl

theorem string_mk_nil : (String.mk [] : String) = "" := rfl

theorem no_highlight_text_raw (s : String) : no_highlight (text_raw s) := by
  intro l hl sg hsg
  simp [text_raw] at hl
  obtain ⟨a, _, rfl⟩ := hl
  simp at hsg
  rw [hsg]

theorem string_join_single (s : String) : String.join [s] = s := by
  show String.join [s] = s
  cases s with
  | mk data =>
    show String.mk ([] ++ data) = String.mk data
    rw [List.nil_append]

theorem concat_plain_text_raw (s : String) :
    concat_plain (text_raw s) = String.intercalate "\n" (rust_lines s) := by
  unfold concat_plain text_raw
  congr 1
  rw [List.map_map]
  conv_rhs => rw [← List.map_id (rust_lines s)]
  apply List.map_congr_left
  intro a _
  show String.join [a] = a
  exact string_join_single a

/-- The else branch of `source_code_ui` (ui.rs:451-453): when the resolved
span is not inside the block span, the whole source is emitted raw. -/
theorem source_code_ui_outside {block : BlockState}
    (h : ¬ (block.view_ir.span.start
              ≤ ((highlight_target block).getD Span.unknown).start ∧
            ((highlight_target block).getD Span.unknown).end_
              ≤ block.view_ir.span.end_)) :
    source_code_ui block = text_raw block.source := by
  unfold source_code_ui
  rw [if_neg h]

/-- With no resolved span and a block span starting at offset 0, the split
path runs with a zero-width highlight at offset 0 and still produces exactly
the raw plain lines of the source. -/
theorem source_code_ui_absent_zero {block : BlockState}
    (hht : highlight_target block = none)
    (hstart : block.view_ir.span.start = 0) :
    source_code_ui block = text_raw block.source := by
  unfold source_code_ui
  rw [hht]
  simp only [Option.getD_none, Span.unknown, hstart, Nat.zero_le, le_refl,
    and_self, if_true, Nat.sub_self, Nat.sub_zero, split_at, List.take_zero,
    List.drop_zero, string_mk_nil, string_mk_data, rust_lines_empty,
    List.length_nil, Nat.zero_sub, List.take_nil, List.map_nil,
    List.getLast?_nil, List.head?_nil, List.tail_nil, List.drop_nil,
    List.nil_append]
  cases hl : rust_lines block.source with
  | nil => simp [text_raw, hl]
  | cons l ls => simp [text_raw, hl, push_span]

/-- C4 counterexample: a block whose source text ends in a newline, with no
selected-instruction span (absent). The fallback emits the source's lines,
but the concatenated plain text `"a"` is NOT exactly the original source
`"a\n"`: line splitting drops the trailing newline. -/
def trailing_block : BlockState := ⟨⟨7, ⟨10, 12⟩, ⟨[], [], []⟩, []⟩, "a\n", none⟩

theorem claim4_counterexample :
    highlight_target trailing_block = none ∧
    no_highlight (source_code_ui trailing_block) ∧
    concat_plain (source_code_ui trailing_block) = "a" ∧
    concat_plain (source_code_ui trailing_block) ≠ trailing_block.source := by
  decide

/-- C4 amended: whenever the selected-instruction span is absent, or it is a
well-formed span with its start or end outside
`[block_span.start, block_span.end]`, the compositor emits the entire source
text as plain lines with no highlighted segment, and the concatenated plain
text equals the source's lines rejoined with newline separators (the source
text itself exactly when the source round-trips through line splitting, which
a trailing newline or a CR-LF does not). -/
theorem claim4 (block : BlockState)
    (h : highlight_target block = none ∨
         ∃ hs, highlight_target block = some hs ∧ hs.start ≤ hs.end_ ∧
           (hs.start < block.view_ir.span.start ∨
            block.view_ir.span.end_ < hs.start ∨
            hs.end_ < block.view_ir.span.start ∨
            block.view_ir.span.end_ < hs.end_)) :
    source_code_ui block = text_raw block.source ∧
    no_highlight (source_code_ui block) ∧
    concat_plain (source_code_ui block)
      = String.intercalate "\n" (rust_lines block.source) := by
  have hmain : source_code_ui block = text_raw block.source := by
    rcases h with hht | ⟨hs, hht, hwf, hout⟩
    · by_cases hstart : block.view_ir.span.start = 0
      · exact source_code_ui_absent_zero hht hstart
      · apply source_code_ui_outside
        rw [hht]
        simp only [Option.getD_none, Span.unknown]
        intro hcon
        exact hstart (Nat.le_antisymm hcon.1 (Nat.zero_le _))
    · apply source_code_ui_outside
      rw [hht]
      simp only [Option.getD_some]
      intro hcon
      omega
  refine ⟨hmain, ?_, ?_⟩
  · rw [hmain]
    exact no_highlight_text_raw block.source
  · rw [hmain]
    exact concat_plain_text_raw block.source

theorem claim4_witness :
    source_code_ui trailing_block = text_raw trailing_block.source ∧
    no_highlight (source_code_ui trailing_block) ∧
    concat_plain (source_code_ui trailing_block)
      = String.intercalate "\n" (rust_lines trailing_block.source) :=
  claim4 trailing_block (Or.inl (by rfl))

end ExploreIr
